import Mathlib

/-!
Shallow embedding of the mirgecom time-stepping / checkpointing core
(`mirgecom/simutil.py` and `mirgecom/steppers.py`), with theorems checking
the natural-language specification against the code.

Modelling conventions:
* Python floats are modelled by `ℚ` (exact arithmetic), Python ints by `ℤ`.
* A simulation state (`q` / `fields`: an object array of per-field DOF
  arrays) is a list of fields, each field a list of point values.
* External collaborators (the discretization's `get_inviscid_timestep`,
  the RK4 integrator bound to its right-hand side, the initializer /
  exact-solution generator, the equation of state) are opaque function
  parameters: the theorems hold for every choice of them.
* Logging and visualization dumps are side effects; the embedding records
  them in the returned outcome (message lists, report lists, flags).
-/

/-- A simulation state: one list of point values per conserved field. -/
abbrev SimState := List (List ℚ)

/-- The discretization collaborator, reduced to what the embedded code
reads from it: the spatial coordinate field (`discr.nodes()`) and the
problem dimensionality (`discr.dim`). -/
structure Discr where
  nodes : List (List ℚ)
  dim : ℕ
deriving DecidableEq

/-- `check_step(step, interval)` from `mirgecom/simutil.py`: interval 0 is
always due, negative intervals never, otherwise due iff the step index is
a multiple of the interval. -/
def check_step (step : ℤ) (interval : ℤ) : Bool :=
  if interval = 0 then true
  else if interval < 0 then false
  else if step % interval = 0 then true
  else false

/-- `inviscid_sim_timestep` from `mirgecom/simutil.py`.  The collaborator
`get_inviscid_timestep` (from `mirgecom.euler`, outside the embedded core)
is passed as the function argument `gits`; `eos` is the equation-of-state
collaborator. -/
def inviscid_sim_timestep (gits : Discr → SimState → ℚ → (SimState → SimState) → ℚ)
    (discr : Discr) (state : SimState) (t dt cfl : ℚ) (eos : SimState → SimState)
    (t_final : ℚ) (constant_cfl : Bool) : ℚ :=
  let mydt := if constant_cfl = true then gits discr state cfl eos else dt
  if t_final < t + mydt then t_final - t else mydt

/-- Maximum of a list of rationals against a floor of 0; models `np.max`
and Python `max` on the (nonempty, nonnegative) error lists the code
applies them to. -/
def npmax (l : List ℚ) : ℚ := l.foldl max 0

/-- Per-field maximum absolute value of a field. -/
def fieldAbsMax (f : List ℚ) : ℚ := npmax (f.map (fun x => |x|))

/-- Modelled from the spec: `compare_states(red_state, blue_state)` lives
in `mirgecom/checkstate.py`, which is not among the sources; the spec says
it computes "a per-field maximum absolute error between `state` and
`expected_state`".  Fields are compared pointwise. -/
def compare_states (red blue : SimState) : List ℚ :=
  List.zipWith (fun f g => fieldAbsMax (List.zipWith (fun x y => x - y) f g)) red blue

/- ### The Checkpoint/Status Reporter (`sim_checkpoint`) -/

/-- A message handed to the logger.  `make_status_message` (from
`mirgecom.io`, outside the embedded core) formats its inputs into text;
the embedding records the inputs structurally instead of as a string. -/
inductive Msg where
  | status (t : ℚ) (step : ℤ) (dt cfl : ℚ) (dv : SimState) (errs : Option (List ℚ))
  | error (text : String)
deriving DecidableEq

/-- What one `sim_checkpoint` call returns and does: the integer status
code it returns, whether the derived quantities (`dv = eos(q)`) and the
reference solution were evaluated, the messages emitted through
`logger.info` / `logger.error` on this process, and whether a
visualization dump was written. -/
structure CheckpointOutcome where
  status : ℤ
  dvComputed : Bool
  exactComputed : Bool
  infoLog : List Msg
  errorLog : List Msg
  vizDumped : Bool
deriving DecidableEq

/-- `sim_checkpoint` from `mirgecom/simutil.py`.  `comm` models the MPI
communicator as `none` (serial, rank 0) or `some r` (the calling
process's rank).  `exact_soln` is the optional reference-solution
generator, called as in the source with `(t, nodes, eos)`.  Note that in
the source the formatted status message is only passed to `logger.info`
when an exact solution is available and the rank is 0; the divergence
`logger.error` call is not rank-guarded. -/
def sim_checkpoint (discr : Discr) (eos : SimState → SimState) (q : SimState)
    (exact_soln : Option (ℚ → List (List ℚ) → (SimState → SimState) → SimState))
    (step : ℤ) (t dt cfl : ℚ) (nstatus nviz : ℤ) (exittol : ℚ)
    (comm : Option ℤ) : CheckpointOutcome :=
  let do_viz := check_step step nviz
  let do_status := check_step step nstatus
  if do_viz = false ∧ do_status = false then
    { status := 0, dvComputed := false, exactComputed := false,
      infoLog := [], errorLog := [], vizDumped := false }
  else
    let rank : ℤ := match comm with
      | none => 0
      | some r => r
    let dv := eos q
    let expectedOpt : Option SimState :=
      if do_status = true ∨ do_viz = true then
        exact_soln.map (fun f => f t discr.nodes eos)
      else none
    let statusResult : ℤ × List Msg × List Msg :=
      if do_status = true then
        match expectedOpt with
        | some expected_state =>
            let max_errors := compare_states q expected_state
            let infoLog := if rank = 0 then
              [Msg.status t step dt cfl dv (some max_errors)] else []
            let maxerr := npmax max_errors
            if exittol < maxerr then
              (1, infoLog, [Msg.error "Solution failed to follow expected result."])
            else
              (0, infoLog, [])
        | none => (0, [], [])
      else (0, [], [])
    { status := statusResult.1, dvComputed := true,
      exactComputed := expectedOpt.isSome,
      infoLog := statusResult.2.1, errorLog := statusResult.2.2,
      vizDumped := do_viz }

/- ### The Stepping Loop (`euler_flow_stepper`) -/

/-- The run parameters of `euler_flow_stepper` from `mirgecom/steppers.py`,
with the external collaborators bound to the objects the source builds
before the loop: `initializer` is `initializer(t, nodes)` with `nodes`
fixed, `stepFn` is `rk4_step(fields, t, dt, rhs)` with `rhs` (and hence
discretization, boundaries and EOS) fixed, and `gits` is
`get_inviscid_timestep(discr, fields, c=cfl, eos=eos)` with `discr` and
`eos` fixed. -/
structure EulerParams where
  t0 : ℚ
  t_final : ℚ
  dt0 : ℚ
  cfl0 : ℚ
  constantcfl : Bool
  nstepstatus : ℤ
  exittol : ℚ
  dim : ℕ
  initializer : ℚ → SimState
  stepFn : SimState → ℚ → ℚ → SimState
  gits : SimState → ℚ → ℚ

/-- The mutable locals of the stepping loop, plus `reports`: the list of
`istep` values at which `write_soln` (the status/visualization report) was
called. -/
structure LoopState where
  t : ℚ
  dt : ℚ
  cfl : ℚ
  sdt : ℚ
  istep : ℤ
  fields : SimState
  reports : List ℤ
deriving DecidableEq

/-- The `dt` actually used by an iteration: under constant CFL the code
overwrites `dt` with the precomputed stable timestep `sdt`. -/
def dtUsed (P : EulerParams) (s : LoopState) : ℚ :=
  if P.constantcfl = true then s.sdt else s.dt

/-- One iteration of the `while t < t_final` body of `euler_flow_stepper`:
choose `dt`/`cfl`, report when `nstatus > 0` and `istep` is on the
interval, advance the fields one RK4 step, advance `t` and `istep`, and
recompute the stable timestep from the new fields. -/
def eulerStep (P : EulerParams) (s : LoopState) : LoopState :=
  let dt := dtUsed P s
  let cfl := if P.constantcfl = true then s.cfl else s.dt / s.sdt
  let reports :=
    if 0 < P.nstepstatus ∧ s.istep % P.nstepstatus = 0 then s.reports ++ [s.istep]
    else s.reports
  let fields := P.stepFn s.fields s.t dt
  { t := s.t + dt, dt := dt, cfl := cfl, sdt := P.gits fields cfl,
    istep := s.istep + 1, fields := fields, reports := reports }

/-- The `while t < t_final` loop, with fuel; `none` means the fuel ran out
before the loop condition failed. -/
def eulerLoop (P : EulerParams) : ℕ → LoopState → Option LoopState
  | 0, s => if s.t < P.t_final then none else some s
  | n + 1, s => if s.t < P.t_final then eulerLoop P n (eulerStep P s) else some s

/-- The `maxerr` list computed by `write_soln` (and by the post-loop
`else` branch): the per-field maximum absolute residual between the
current fields and the initializer evaluated at the current time, over
the `dim + 2` conserved fields. -/
def residMaxerrs (P : EulerParams) (t : ℚ) (fields : SimState) : List ℚ :=
  (List.range (P.dim + 2)).map
    (fun i => fieldAbsMax (List.zipWith (fun x y => x - y) (fields.getD i [])
      ((P.initializer t).getD i [])))

/-- The post-loop tail of `euler_flow_stepper`: when `nstatus > 0` a final
`write_soln` report is made (appending the final `istep` to the report
list); either way the worst residual `maxerr` is computed, a `ValueError`
is raised when it exceeds `exittol`, and otherwise `maxerr` is returned.
The second component records every report made by the whole run. -/
def eulerFinish (P : EulerParams) (s : LoopState) : Except String ℚ × List ℤ :=
  let maxerr := npmax (residMaxerrs P s.t s.fields)
  let reports := if 0 < P.nstepstatus then s.reports ++ [s.istep] else s.reports
  if P.exittol < maxerr then
    (Except.error "Solution failed to follow expected result.", reports)
  else
    (Except.ok maxerr, reports)

/-- The loop state just before the first iteration: `istep = 0`, fields
from `initializer(0, nodes)`, and the first stable timestep from the
initial fields. -/
def eulerInit (P : EulerParams) : LoopState :=
  { t := P.t0, dt := P.dt0, cfl := P.cfl0, sdt := P.gits (P.initializer 0) P.cfl0,
    istep := 0, fields := P.initializer 0, reports := [] }

/-- `euler_flow_stepper` from `mirgecom/steppers.py`: early scalar return
`0.0` when `t_final ≤ t`, else run the loop and the post-loop tail.  The
result pairs the returned value (or raised `ValueError`) with the list of
steps at which a report was written. -/
def euler_flow_stepper (P : EulerParams) (fuel : ℕ) :
    Option (Except String ℚ × List ℤ) :=
  if P.t_final ≤ P.t0 then some (Except.ok 0, [])
  else (eulerLoop P fuel (eulerInit P)).map (eulerFinish P)

/- ### Concrete runs used by witnesses and counterexamples -/

/-- A fixed-step run with `dt = 7/10` and `t_final = 1`: two iterations,
overshooting the final time at `t = 7/5`, with reporting disabled
(`nstatus = -1`) and the exact solution matched (`maxerr = 0`). -/
def overshootParams : EulerParams :=
  { t0 := 0, t_final := 1, dt0 := 7/10, cfl0 := 1, constantcfl := false,
    nstepstatus := -1, exittol := 10, dim := 1,
    initializer := fun _ => [[0], [0], [0]],
    stepFn := fun f _ _ => f, gits := fun _ _ => 1 }

/-- Like `overshootParams` but with reporting every step (`nstatus = 1`)
and a reference solution that drifts away from the (frozen) fields, so the
final residual `7/5` exceeds `exittol = 1` and the run diverges. -/
def divergingParams : EulerParams :=
  { t0 := 0, t_final := 1, dt0 := 7/10, cfl0 := 1, constantcfl := false,
    nstepstatus := 1, exittol := 1, dim := 1,
    initializer := fun t => [[t], [0], [0]],
    stepFn := fun f _ _ => f, gits := fun _ _ => 1 }

/-- A run that is over before it starts (`t_final ≤ t`), hitting the early
scalar return `0.0`. -/
def earlyExitParams : EulerParams :=
  { t0 := 1, t_final := 0, dt0 := 1, cfl0 := 1, constantcfl := false,
    nstepstatus := 1, exittol := 1, dim := 1,
    initializer := fun _ => [[0], [0], [0]],
    stepFn := fun f _ _ => f, gits := fun _ _ => 1 }

/-- A post-loop state whose step index `1` is *off* the reporting interval
`2`, exhibiting that the final report ignores the interval gating. -/
def offIntervalState : LoopState :=
  { t := 1, dt := 1, cfl := 1, sdt := 1, istep := 1,
    fields := [[0], [0], [0]], reports := [] }

/- ### Theorems on the Interval Checker and Timestep Selector -/

/-- C7: `check_step(step, interval)` returns true when `interval == 0`,
false when `interval < 0`, and otherwise `step mod interval == 0`; it is a
total function on all integer inputs. -/
theorem check_step_spec (step interval : ℤ) :
    (interval = 0 → check_step step interval = true) ∧
    (interval < 0 → check_step step interval = false) ∧
    (0 < interval → (check_step step interval = true ↔ step % interval = 0)) := by
  unfold check_step
  refine ⟨fun h0 => by simp [h0], fun hneg => ?_, fun hpos => ?_⟩
  · rw [if_neg (by omega), if_pos hneg]
  · rw [if_neg (by omega), if_neg (by omega)]
    by_cases hmod : step % interval = 0
    · simp [hmod]
    · simp [hmod]

theorem check_step_spec_witness :
    ((0 : ℤ) = 0 → check_step 5 0 = true) ∧
    ((-3 : ℤ) < 0 → check_step 5 (-3) = false) ∧
    ((0 : ℤ) < 3 ∧ (check_step 6 3 = true ↔ (6 : ℤ) % 3 = 0)) :=
  ⟨(check_step_spec 5 0).1 ∘ (fun _ => rfl),
   fun _ => (check_step_spec 5 (-3)).2.1 (by decide),
   ⟨by decide, (check_step_spec 6 3).2.2 (by decide)⟩⟩

/-- C3: for `t < t_final` the returned step size never overshoots
(`t + dt' ≤ t_final`); when the candidate step would overshoot, the result
is clipped to exactly `t_final - t`; and in fixed-step mode
(`constant_cfl = false`) a non-overshooting `dt` is returned unchanged. -/
theorem inviscid_sim_timestep_clip (gits : Discr → SimState → ℚ → (SimState → SimState) → ℚ)
    (discr : Discr) (state : SimState) (t dt cfl : ℚ) (eos : SimState → SimState)
    (t_final : ℚ) (constant_cfl : Bool) (ht : t < t_final) :
    t + inviscid_sim_timestep gits discr state t dt cfl eos t_final constant_cfl ≤ t_final ∧
    (t_final < t + (if constant_cfl = true then gits discr state cfl eos else dt) →
      inviscid_sim_timestep gits discr state t dt cfl eos t_final constant_cfl = t_final - t) ∧
    (constant_cfl = false → t + dt ≤ t_final →
      inviscid_sim_timestep gits discr state t dt cfl eos t_final constant_cfl = dt) := by
  unfold inviscid_sim_timestep
  set mydt := if constant_cfl = true then gits discr state cfl eos else dt with hmydt
  refine ⟨?_, fun hover => ?_, fun hcfl hok => ?_⟩
  · by_cases h : t_final < t + mydt
    · simp only [if_pos h]
      linarith
    · simp only [if_neg h]
      push_neg at h
      linarith
  · simp [hover]
  · have hm : mydt = dt := by simp [hmydt, hcfl]
    rw [hm]
    simp [(by linarith : ¬ t_final < t + dt)]

theorem inviscid_sim_timestep_clip_witness :
    (0 : ℚ) < 1 ∧
    0 + inviscid_sim_timestep (fun _ _ _ _ => 0) ⟨[], 1⟩ [] 0 (7/10) 1
        (fun s => s) 1 false ≤ 1 :=
  ⟨by norm_num,
   (inviscid_sim_timestep_clip (fun _ _ _ _ => 0) ⟨[], 1⟩ [] 0 (7/10) 1
      (fun s => s) 1 false (by norm_num)).1⟩

/-- C10: with `constant_cfl = false` the selected step size depends only on
`(t, dt, t_final)`: the discretization, the state, the CFL target, the
equation of state, and even the CFL-timestep collaborator itself do not
influence the result. -/
theorem inviscid_sim_timestep_fixed_noninterference
    (g1 g2 : Discr → SimState → ℚ → (SimState → SimState) → ℚ)
    (d1 d2 : Discr) (s1 s2 : SimState) (t dt : ℚ) (c1 c2 : ℚ)
    (e1 e2 : SimState → SimState) (t_final : ℚ) :
    inviscid_sim_timestep g1 d1 s1 t dt c1 e1 t_final false =
      inviscid_sim_timestep g2 d2 s2 t dt c2 e2 t_final false := by
  unfold inviscid_sim_timestep
  simp

/- ### Theorems on the Checkpoint/Status Reporter -/

/-- C1: on a status-due call with a reference solution configured, the
returned status is 1 exactly when the worst per-field maximum absolute
error exceeds `exittol` (no exception is raised: the function is total
and returns); on a non-status-due call, or with no reference solution,
the status is 0. -/
theorem sim_checkpoint_divergence_status (discr : Discr) (eos : SimState → SimState)
    (q : SimState) (f : ℚ → List (List ℚ) → (SimState → SimState) → SimState)
    (step : ℤ) (t dt cfl : ℚ) (nstatus nviz : ℤ) (exittol : ℚ) (comm : Option ℤ) :
    (check_step step nstatus = true →
      (sim_checkpoint discr eos q (some f) step t dt cfl nstatus nviz exittol comm).status =
        if exittol < npmax (compare_states q (f t discr.nodes eos)) then 1 else 0) ∧
    (check_step step nstatus = false →
      (sim_checkpoint discr eos q (some f) step t dt cfl nstatus nviz exittol comm).status = 0) ∧
    (sim_checkpoint discr eos q none step t dt cfl nstatus nviz exittol comm).status = 0 := by
  refine ⟨fun hs => ?_, fun hs => ?_, ?_⟩
  · by_cases he : exittol < npmax (compare_states q (f t discr.nodes eos)) <;>
      by_cases hr : (match comm with | none => (0 : ℤ) | some r => r) = 0 <;>
        simp [sim_checkpoint, hs, he, hr]
  · by_cases hv : check_step step nviz <;> simp [sim_checkpoint, hs, hv]
  · by_cases hv : check_step step nviz <;>
      by_cases hs : check_step step nstatus <;>
        simp [sim_checkpoint, hs, hv]

theorem sim_checkpoint_divergence_status_witness :
    check_step 0 1 = true ∧
    (sim_checkpoint ⟨[[0]], 1⟩ (fun s => s) [[0], [0], [0]]
      (some (fun _ _ _ => [[1], [1], [1]])) 0 0 0 1 1 (-1) (1/2) none).status = 1 :=
  ⟨by decide,
   ((sim_checkpoint_divergence_status ⟨[[0]], 1⟩ (fun s => s) [[0], [0], [0]]
      (fun _ _ _ => [[1], [1], [1]]) 0 0 0 1 1 (-1) (1/2) none).1 (by decide)).trans
     (by norm_num [npmax, compare_states, fieldAbsMax])⟩

/-- C6: the no-op fast path.  When neither the visualization interval nor
the status interval makes the step due, `sim_checkpoint` returns status 0
at once: no derived quantities are computed, no reference solution is
evaluated, nothing is logged, nothing is dumped. -/
theorem sim_checkpoint_noop_fast_path (discr : Discr) (eos : SimState → SimState)
    (q : SimState) (exact_soln : Option (ℚ → List (List ℚ) → (SimState → SimState) → SimState))
    (step : ℤ) (t dt cfl : ℚ) (nstatus nviz : ℤ) (exittol : ℚ) (comm : Option ℤ)
    (hv : check_step step nviz = false) (hs : check_step step nstatus = false) :
    sim_checkpoint discr eos q exact_soln step t dt cfl nstatus nviz exittol comm =
      { status := 0, dvComputed := false, exactComputed := false,
        infoLog := [], errorLog := [], vizDumped := false } := by
  simp [sim_checkpoint, hv, hs]

theorem sim_checkpoint_noop_fast_path_witness :
    check_step 3 2 = false ∧ check_step 3 (-1) = false ∧
    sim_checkpoint ⟨[[0]], 1⟩ (fun s => s) [[0], [0], [0]]
        (some (fun _ _ _ => [[9], [9], [9]])) 3 0 0 1 (-1) 2 (1/2) none =
      { status := 0, dvComputed := false, exactComputed := false,
        infoLog := [], errorLog := [], vizDumped := false } :=
  ⟨by decide, by decide,
   sim_checkpoint_noop_fast_path ⟨[[0]], 1⟩ (fun s => s) [[0], [0], [0]]
     (some (fun _ _ _ => [[9], [9], [9]])) 3 0 0 1 (-1) 2 (1/2) none
     (by decide) (by decide)⟩

/-- C9: divergence is only detected on status steps.  Whenever the status
interval is not due, the returned status is 0 — even if the visualization
interval is due, a reference solution is configured, and the error exceeds
`exittol`. -/
theorem sim_checkpoint_viz_only_status_zero (discr : Discr) (eos : SimState → SimState)
    (q : SimState) (exact_soln : Option (ℚ → List (List ℚ) → (SimState → SimState) → SimState))
    (step : ℤ) (t dt cfl : ℚ) (nstatus nviz : ℤ) (exittol : ℚ) (comm : Option ℤ)
    (hs : check_step step nstatus = false) :
    (sim_checkpoint discr eos q exact_soln step t dt cfl nstatus nviz exittol comm).status
      = 0 := by
  by_cases hv : check_step step nviz <;> simp [sim_checkpoint, hs, hv]

theorem sim_checkpoint_viz_only_status_zero_witness :
    check_step 1 2 = false ∧ check_step 1 1 = true ∧
    (sim_checkpoint ⟨[[0]], 1⟩ (fun s => s) [[0], [0], [0]]
        (some (fun _ _ _ => [[5], [5], [5]])) 1 0 0 1 2 1 (1/2) none).status = 0 :=
  ⟨by decide, by decide,
   sim_checkpoint_viz_only_status_zero ⟨[[0]], 1⟩ (fun s => s) [[0], [0], [0]]
     (some (fun _ _ _ => [[5], [5], [5]])) 1 0 0 1 2 1 (1/2) none (by decide)⟩

/-- C8 counterexample: on a rank-1 process, a status-due, diverging call
does emit the divergence error-level message — `logger.error` is not
guarded by `rank == 0` in the source, so the error line is not confined to
the designated rank. -/
theorem sim_checkpoint_rank_gating_counterexample :
    (sim_checkpoint ⟨[[0]], 1⟩ (fun s => s) [[0], [0], [0]]
        (some (fun _ _ _ => [[1], [1], [1]])) 0 0 0 1 1 (-1) (1/2) (some 1)).errorLog =
      [Msg.error "Solution failed to follow expected result."] := by
  norm_num [sim_checkpoint, check_step, npmax, compare_states, fieldAbsMax]

/-- C8 amended: on a process with nonzero rank no status (info-level)
message is ever emitted, but the error log is identical to that of the
rank-0 (serial) call: the divergence error-level message is emitted on
every rank alike. -/
theorem sim_checkpoint_rank_gating_amended (discr : Discr) (eos : SimState → SimState)
    (q : SimState) (exact_soln : Option (ℚ → List (List ℚ) → (SimState → SimState) → SimState))
    (step : ℤ) (t dt cfl : ℚ) (nstatus nviz : ℤ) (exittol : ℚ) (r : ℤ) (hr : r ≠ 0) :
    (sim_checkpoint discr eos q exact_soln step t dt cfl nstatus nviz exittol (some r)).infoLog
        = [] ∧
    (sim_checkpoint discr eos q exact_soln step t dt cfl nstatus nviz exittol (some r)).errorLog
        = (sim_checkpoint discr eos q exact_soln step t dt cfl nstatus nviz exittol none).errorLog
      := by
  by_cases hv : check_step step nviz <;> by_cases hs : check_step step nstatus <;>
    cases exact_soln <;>
      simp [sim_checkpoint, hv, hs, hr] <;>
        split <;> simp [hr]

theorem sim_checkpoint_rank_gating_amended_witness :
    (2 : ℤ) ≠ 0 ∧
    (sim_checkpoint ⟨[[0]], 1⟩ (fun s => s) [[0], [0], [0]]
        (some (fun _ _ _ => [[1], [1], [1]])) 0 0 0 1 1 (-1) (1/2) (some 2)).infoLog = [] :=
  ⟨by decide,
   (sim_checkpoint_rank_gating_amended ⟨[[0]], 1⟩ (fun s => s) [[0], [0], [0]]
     (some (fun _ _ _ => [[1], [1], [1]])) 0 0 0 1 1 (-1) (1/2) 2 (by decide)).1⟩


/- ### Theorems on the Stepping Loop -/

/-- Whenever the loop condition has failed, the loop returns its state
unchanged, regardless of remaining fuel. -/
theorem eulerLoop_exit (P : EulerParams) (n : ℕ) (s : LoopState)
    (h : ¬ s.t < P.t_final) : eulerLoop P n s = some s := by
  cases n <;> simp [eulerLoop, h]

/-- C2 counterexample: a fixed-step run with `dt = 7/10` and `t_final = 1`
exits the loop at `t = 7/5`, overshooting `t_final` by `2/5` — two fifths
of the step size, not floating-point rounding; no clipping of the last
`dt` to land on `t_final` happens inside `euler_flow_stepper`. -/
theorem euler_clock_overshoot_counterexample :
    (eulerLoop overshootParams 3 (eulerInit overshootParams)).map LoopState.t
        = some (7/5) ∧
    ¬ ((7 : ℚ)/5 ≤ overshootParams.t_final) := by
  constructor
  · norm_num [overshootParams, eulerLoop, eulerStep, eulerInit, dtUsed]
  · norm_num [overshootParams]

/-- C2 amended: each iteration advances `istep` by exactly 1 and `t` by
exactly the `dt` used in that iteration; when the loop exits, the final
`t` satisfies `t_final ≤ t < t_final + dt_last` — the overshoot is
bounded by the last step size, which is *not* clipped to land on
`t_final`. -/
theorem euler_clock_invariant (P : EulerParams) (fuel : ℕ) (s s1 : LoopState)
    (h : eulerLoop P fuel s = some s1) :
    (∀ s2 : LoopState, (eulerStep P s2).istep = s2.istep + 1 ∧
      (eulerStep P s2).t = s2.t + dtUsed P s2) ∧
    P.t_final ≤ s1.t ∧
    (s.t < P.t_final → s1.t < P.t_final + s1.dt) := by
  refine ⟨fun s2 => ⟨rfl, rfl⟩, ?_⟩
  induction fuel generalizing s with
  | zero =>
    by_cases hc : s.t < P.t_final
    · simp [eulerLoop, hc] at h
    · simp only [eulerLoop, if_neg hc, Option.some.injEq] at h
      subst h
      exact ⟨not_lt.1 hc, fun hlt => absurd hlt hc⟩
  | succ n ih =>
    by_cases hc : s.t < P.t_final
    · simp only [eulerLoop, if_pos hc] at h
      rcases ih (eulerStep P s) h with ⟨hfin, hover⟩
      refine ⟨hfin, fun _ => ?_⟩
      by_cases hc2 : (eulerStep P s).t < P.t_final
      · exact hover hc2
      · rw [eulerLoop_exit P n _ hc2] at h
        injection h with h
        subst h
        have h1 : (eulerStep P s).t = s.t + dtUsed P s := rfl
        have h2 : (eulerStep P s).dt = dtUsed P s := rfl
        rw [h1, h2]
        linarith
    · simp only [eulerLoop, if_neg hc, Option.some.injEq] at h
      subst h
      exact ⟨not_lt.1 hc, fun hlt => absurd hlt hc⟩

theorem euler_clock_invariant_witness :
    eulerLoop overshootParams 3 (eulerInit overshootParams) = some
      { t := 7/5, dt := 7/10, cfl := 7/10, sdt := 1, istep := 2,
        fields := [[0], [0], [0]], reports := [] } ∧
    overshootParams.t_final ≤ (7/5 : ℚ) := by
  have h : eulerLoop overshootParams 3 (eulerInit overshootParams) = some
      { t := 7/5, dt := 7/10, cfl := 7/10, sdt := 1, istep := 2,
        fields := [[0], [0], [0]], reports := [] } := by
    norm_num [overshootParams, eulerLoop, eulerStep, eulerInit, dtUsed]
  exact ⟨h, (euler_clock_invariant overshootParams 3 (eulerInit overshootParams) _ h).2.1⟩

/-- C4 counterexample: a run with reporting disabled (`nstatus = -1`)
exits the stepping loop normally yet performs no checkpoint/report call at
all — the report list of the whole run is empty, because the post-loop
report is gated on `nstatus > 0` rather than unconditional. -/
theorem euler_final_report_counterexample :
    euler_flow_stepper overshootParams 3 = some (Except.ok 0, []) := by
  norm_num [euler_flow_stepper, overshootParams, eulerLoop, eulerStep, eulerInit,
    eulerFinish, dtUsed, residMaxerrs, npmax, fieldAbsMax, List.range_succ]

/-- C4 amended: the post-loop report is made exactly when `nstatus > 0`,
and then unconditionally — the final `istep` is reported whether or not it
falls on the reporting interval; with `nstatus ≤ 0` no final report is
made at all. -/
theorem euler_final_report (P : EulerParams) (s : LoopState) :
    (0 < P.nstepstatus → (eulerFinish P s).2 = s.reports ++ [s.istep]) ∧
    (P.nstepstatus ≤ 0 → (eulerFinish P s).2 = s.reports) := by
  unfold eulerFinish
  constructor <;> intro h
  · by_cases he : P.exittol < npmax (residMaxerrs P s.t s.fields) <;>
      simp [he, h]
  · by_cases he : P.exittol < npmax (residMaxerrs P s.t s.fields) <;>
      simp [he] <;> omega

theorem euler_final_report_witness :
    (0 : ℤ) < 2 ∧ offIntervalState.istep % 2 ≠ 0 ∧
    (eulerFinish { overshootParams with nstepstatus := 2 } offIntervalState).2 = [1] :=
  ⟨by decide, by decide,
   (euler_final_report { overshootParams with nstepstatus := 2 } offIntervalState).1
     (by decide)⟩

/-- C5 counterexample: a diverging run (final residual `7/5` above
`exittol = 1`) makes `euler_flow_stepper` raise the fixed-message
`ValueError` — a bare string carrying no `(step, t, state)` payload — and
a completing run returns the scalar `maxerr`, not a
`(final_step, final_t, final_state)` triple. -/
theorem euler_mismatch_counterexample :
    euler_flow_stepper divergingParams 3 =
      some (Except.error "Solution failed to follow expected result.", [0, 1, 2]) := by
  have habs : |(7 : ℚ)/5| = 7/5 := abs_of_nonneg (by norm_num)
  norm_num [euler_flow_stepper, divergingParams, eulerLoop, eulerStep, eulerInit,
    eulerFinish, dtUsed, residMaxerrs, npmax, fieldAbsMax, List.range_succ, habs]

/-- C5 amended: whenever `euler_flow_stepper` terminates it either raises
the fixed-message `ValueError` (no step, time or state attached) or
returns a scalar: the final maximum error — which is then within
`exittol` — or the early-exit `0.0` when `t_final ≤ t`.  It never returns
a `(final_step, final_t, final_state)` triple. -/
theorem euler_return_scalar (P : EulerParams) (fuel : ℕ)
    (out : Except String ℚ × List ℤ) (h : euler_flow_stepper P fuel = some out) :
    out.1 = Except.error "Solution failed to follow expected result." ∨
    (∃ m : ℚ, out.1 = Except.ok m ∧ (m ≤ P.exittol ∨ (P.t_final ≤ P.t0 ∧ m = 0))) := by
  unfold euler_flow_stepper at h
  by_cases h0 : P.t_final ≤ P.t0
  · rw [if_pos h0] at h
    injection h with h
    subst h
    exact Or.inr ⟨0, rfl, Or.inr ⟨h0, rfl⟩⟩
  · rw [if_neg h0] at h
    cases hL : eulerLoop P fuel (eulerInit P) with
    | none =>
      rw [hL] at h
      cases h
    | some s1 =>
      rw [hL] at h
      simp only [Option.map_some'] at h
      injection h with h
      simp only [eulerFinish] at h
      by_cases he : P.exittol < npmax (residMaxerrs P s1.t s1.fields)
      · rw [if_pos he] at h
        exact Or.inl (by rw [← h])
      · rw [if_neg he] at h
        exact Or.inr ⟨npmax (residMaxerrs P s1.t s1.fields),
          by rw [← h], Or.inl (not_lt.1 he)⟩

theorem euler_return_scalar_witness :
    (Except.ok (0 : ℚ) : Except String ℚ)
        = Except.error "Solution failed to follow expected result." ∨
    (∃ m : ℚ, (Except.ok (0 : ℚ) : Except String ℚ) = Except.ok m ∧
      (m ≤ earlyExitParams.exittol ∨
        (earlyExitParams.t_final ≤ earlyExitParams.t0 ∧ m = 0))) :=
  euler_return_scalar earlyExitParams 0 (Except.ok 0, [])
    (by norm_num [euler_flow_stepper, earlyExitParams])
